import Mathlib

/-!
# Verification of the predictive-maintenance generator and API

Shallow embedding of `generate_data.py` (degradation simulator and
failure-event derivation) and `api.py` (prediction endpoint) over exact
rational arithmetic, with theorems settling the specification's claims.
-/

set_option maxHeartbeats 1000000

namespace PredMaint

/-! Part 1: degradation simulator (generate_data.py, simulate_machine). -/

/-- Per-step stress accumulator of `simulate_machine` (lines 68-91):
starts at 0 and adds a fixed increment for each threshold the step's own
temperature, vibration and load readings exceed. -/
def stress (temp vib load : ℚ) : ℚ :=
  (if temp > 65 then 0.005 else 0) +
  (if temp > 75 then 0.010 else 0) +
  (if temp > 85 then 0.015 else 0) +
  (if vib > 1.8 then 0.007 else 0) +
  (if vib > 2.2 then 0.012 else 0) +
  (if vib > 2.6 then 0.018 else 0) +
  (if load > 80 then 0.005 else 0) +
  (if load > 90 then 0.010 else 0)

/-- A simulated machine: its fixed base wear rate and its per-timestep
sensor signals (temperature, vibration, load), as used by the health-score
recurrence of `simulate_machine`. -/
structure Machine where
  base_wear_rate : ℚ
  temp : ℕ → ℚ
  vibration : ℕ → ℚ
  load_pct : ℕ → ℚ

/-- Health-score recurrence of `simulate_machine` (lines 63-97):
`health_score[0] = 1.0`; for `t ≥ 1`,
`health_score[t] = max(0, health_score[t-1] - (base_wear_rate + stress))`. -/
def health_score (m : Machine) : ℕ → ℚ
  | 0 => 1
  | t + 1 =>
      max 0 (health_score m t -
        (m.base_wear_rate + stress (m.temp (t + 1)) (m.vibration (t + 1)) (m.load_pct (t + 1))))

/-- Sum of the increments of one sensor's threshold table that the reading
exceeds; used to phrase the spec's additive-cumulative stress rule. -/
def sumIncrements (x : ℚ) : List (ℚ × ℚ) → ℚ
  | [] => 0
  | p :: tbl => (if x > p.1 then p.2 else 0) + sumIncrements x tbl

/-- The spec's wording of the per-step stress: fixed increments triggered by
the step's sensor values under the additive-cumulative rule, with the
temperature table 65/75/85 → 0.005/0.010/0.015, the vibration table
1.8/2.2/2.6 → 0.007/0.012/0.018 and the load table 80/90 → 0.005/0.010. -/
def specStress (temp vib load : ℚ) : ℚ :=
  sumIncrements temp [(65, 0.005), (75, 0.010), (85, 0.015)] +
  sumIncrements vib [(1.8, 0.007), (2.2, 0.012), (2.6, 0.018)] +
  sumIncrements load [(80, 0.005), (90, 0.010)]

lemma health_score_zero (m : Machine) : health_score m 0 = 1 := rfl

lemma health_score_succ (m : Machine) (t : ℕ) :
    health_score m (t + 1) =
      max 0 (health_score m t -
        (m.base_wear_rate +
          stress (m.temp (t + 1)) (m.vibration (t + 1)) (m.load_pct (t + 1)))) := rfl

lemma specStress_eq_stress (temp vib load : ℚ) :
    specStress temp vib load = stress temp vib load := by
  simp only [specStress, sumIncrements, stress]
  ring

lemma stress_nonneg (temp vib load : ℚ) : 0 ≤ stress temp vib load := by
  unfold stress
  split_ifs <;> norm_num

lemma stress_le (temp vib load : ℚ) : stress temp vib load ≤ 0.082 := by
  unfold stress
  split_ifs <;> norm_num

lemma health_score_nonneg (m : Machine) (t : ℕ) : 0 ≤ health_score m t := by
  cases t with
  | zero => norm_num [health_score_zero]
  | succ t => rw [health_score_succ]; exact le_max_left _ _

lemma health_score_step_le (m : Machine) (hb : 0 ≤ m.base_wear_rate) (t : ℕ) :
    health_score m (t + 1) ≤ health_score m t := by
  have hs := stress_nonneg (m.temp (t + 1)) (m.vibration (t + 1)) (m.load_pct (t + 1))
  have h0 := health_score_nonneg m t
  rw [health_score_succ]
  exact max_le h0 (by linarith)

lemma health_score_le_one (m : Machine) (hb : 0 ≤ m.base_wear_rate) (t : ℕ) :
    health_score m t ≤ 1 := by
  induction t with
  | zero => norm_num [health_score_zero]
  | succ t ih => exact le_trans (health_score_step_le m hb t) ih

/-- C1: For every machine and every timestep `t > 0`, the new health score
equals `max(0, previous - (base wear rate + stress))`, where the stress is the
sum of fixed increments triggered by that step's own sensor values under the
additive-cumulative threshold rule (temperature 65/75/85 → 0.005/0.010/0.015,
vibration 1.8/2.2/2.6 → 0.007/0.012/0.018, load 80/90 → 0.005/0.010). -/
theorem health_score_recurrence (m : Machine) (t : ℕ) :
    health_score m (t + 1) =
      max 0 (health_score m t -
        (m.base_wear_rate +
          specStress (m.temp (t + 1)) (m.vibration (t + 1)) (m.load_pct (t + 1)))) := by
  rw [specStress_eq_stress, health_score_succ]

/-- C3: Every machine's health-score series starts at exactly 1.0, is
monotonically non-increasing over the whole series, and stays inside `[0, 1]`;
the machine's base wear rate is nonnegative (drawn from `[0.00015, 0.0003]`). -/
theorem health_score_invariants (m : Machine) (hb : 0 ≤ m.base_wear_rate) :
    health_score m 0 = 1 ∧
    (∀ s t : ℕ, s ≤ t → health_score m t ≤ health_score m s) ∧
    (∀ t : ℕ, 0 ≤ health_score m t ∧ health_score m t ≤ 1) := by
  refine ⟨rfl, ?_, fun t => ⟨health_score_nonneg m t, health_score_le_one m hb t⟩⟩
  intro s t hst
  induction t with
  | zero => simp_all
  | succ t ih =>
      rcases Nat.lt_or_ge s (t + 1) with h | h
      · exact le_trans (health_score_step_le m hb t) (ih (Nat.lt_succ_iff.mp h))
      · have : s = t + 1 := le_antisymm hst h
        simp [this]

/-- Witness for C3 at a concrete machine. -/
theorem health_score_invariants_witness :
    health_score ⟨0.0002, fun _ => 50, fun _ => 1, fun _ => 60⟩ 0 = 1 ∧
    health_score ⟨0.0002, fun _ => 50, fun _ => 1, fun _ => 60⟩ 2 ≤
      health_score ⟨0.0002, fun _ => 50, fun _ => 1, fun _ => 60⟩ 1 ∧
    0 ≤ health_score ⟨0.0002, fun _ => 50, fun _ => 1, fun _ => 60⟩ 2 := by
  obtain ⟨h0, hmono, hbd⟩ :=
    health_score_invariants ⟨0.0002, fun _ => 50, fun _ => 1, fun _ => 60⟩ (by norm_num)
  exact ⟨h0, hmono 1 2 (by norm_num), (hbd 2).1⟩

/-- C10: The per-step stress never exceeds 0.082 (the sum of all
increments), so for every machine the health score drops by at most
`base_wear_rate + 0.082` per step. -/
theorem health_score_drop_bound (m : Machine) (t : ℕ) :
    stress (m.temp (t + 1)) (m.vibration (t + 1)) (m.load_pct (t + 1)) ≤ 0.082 ∧
    health_score m t - health_score m (t + 1) ≤ m.base_wear_rate + 0.082 := by
  refine ⟨stress_le _ _ _, ?_⟩
  have hs := stress_le (m.temp (t + 1)) (m.vibration (t + 1)) (m.load_pct (t + 1))
  have hmax : health_score m t -
      (m.base_wear_rate +
        stress (m.temp (t + 1)) (m.vibration (t + 1)) (m.load_pct (t + 1))) ≤
      health_score m (t + 1) := by
    rw [health_score_succ]; exact le_max_right _ _
  linarith

/-! Part 2: failure-event derivation (generate_data.py, lines 136-156).

The post-pass works per machine, on rows ordered by timestamp; one machine's
health-score series is modelled as a function `h : ℕ → ℚ` of the row index. -/

/-- Critical health threshold HEALTH_THRESHOLD = 0.3 (line 136). -/
def HEALTH_THRESHOLD : ℚ := 0.3

/-- Helper column low_health: health_score < HEALTH_THRESHOLD (line 139). -/
def low_health (h : ℕ → ℚ) (i : ℕ) : Bool :=
  decide (h i < HEALTH_THRESHOLD)

/-- Helper column low_health_prev: per-machine shift(1) of low_health with
the first row's missing value filled with False (lines 142-146). -/
def low_health_prev (h : ℕ → ℚ) (i : ℕ) : Bool :=
  if i = 0 then false else low_health h (i - 1)

/-- Column failed: initialised to 0 and set to 1 exactly where low_health is
true and low_health_prev is false (lines 149-153). -/
def failed (h : ℕ → ℚ) (i : ℕ) : ℕ :=
  if low_health h i = true ∧ low_health_prev h i = false then 1 else 0

/-- Number of failure events among a machine's first `n` rows. -/
def failedCount (h : ℕ → ℚ) (n : ℕ) : ℕ :=
  ∑ i ∈ Finset.range n, failed h i

/-- C2: the failed column is 1 exactly on rows with health_score < 0.3 whose
predecessor (same machine) had `health_score ≥ 0.3`, the first row being
treated as having a previous "low" flag of false; every other row has
`failed = 0`. -/
theorem failed_characterisation (h : ℕ → ℚ) (i : ℕ) :
    (failed h i = 1 ↔ h i < 0.3 ∧ (i = 0 ∨ 0.3 ≤ h (i - 1))) ∧
    (failed h i = 1 ∨ failed h i = 0) := by
  constructor
  · rcases eq_or_ne i 0 with h0 | h0
    · subst h0
      simp [failed, low_health, low_health_prev, HEALTH_THRESHOLD]
    · simp [failed, low_health, low_health_prev, HEALTH_THRESHOLD, h0, not_lt]
  · unfold failed
    split_ifs <;> simp

/-- C7: For a machine whose health-score series is non-increasing, the
derivation marks at most one not-low-to-low crossing; if the series moreover
drops below 0.3 somewhere (and, being non-increasing, never recovers), it
produces exactly one row with `failed = 1`. -/
theorem failed_at_most_one (h : ℕ → ℚ) (n : ℕ)
    (hmono : ∀ i j : ℕ, i ≤ j → h j ≤ h i) :
    failedCount h n ≤ 1 ∧ ((∃ i, i < n ∧ h i < 0.3) → failedCount h n = 1) := by
  by_cases hex : ∃ i, i < n ∧ h i < (0.3 : ℚ)
  · obtain ⟨i, hin, hilow⟩ := hex
    have hex' : ∃ k, h k < (0.3 : ℚ) := ⟨i, hilow⟩
    have hi0low : h (Nat.find hex') < 0.3 := Nat.find_spec hex'
    have hi0le : Nat.find hex' ≤ i := Nat.find_min' hex' hilow
    have hi0n : Nat.find hex' < n := lt_of_le_of_lt hi0le hin
    have key : failedCount h n = 1 := by
      have h1 : failed h (Nat.find hex') = 1 := by
        rcases eq_or_ne (Nat.find hex') 0 with hz | hz
        · rw [hz] at hi0low
          simp [failed, low_health, low_health_prev, HEALTH_THRESHOLD, hz, hi0low]
        · have hprev : ¬ h (Nat.find hex' - 1) < 0.3 :=
            Nat.find_min hex' (Nat.sub_lt (Nat.pos_of_ne_zero hz) one_pos)
          simp [failed, low_health, low_health_prev, HEALTH_THRESHOLD, hz, hi0low, hprev]
      have hrest : ∀ j ∈ Finset.range n, j ≠ Nat.find hex' → failed h j = 0 := by
        intro j _ hne
        by_cases hjlow : h j < (0.3 : ℚ)
        · have hle : Nat.find hex' ≤ j := Nat.find_min' hex' hjlow
          have hlt : Nat.find hex' < j := lt_of_le_of_ne hle (Ne.symm hne)
          have hj1 : Nat.find hex' ≤ j - 1 := by omega
          have hprevlow : h (j - 1) < 0.3 :=
            lt_of_le_of_lt (hmono _ _ hj1) hi0low
          have hjz : j ≠ 0 := by omega
          simp [failed, low_health, low_health_prev, HEALTH_THRESHOLD, hjz, hjlow, hprevlow]
        · simp [failed, low_health, HEALTH_THRESHOLD, hjlow]
      calc failedCount h n = ∑ j ∈ Finset.range n, failed h j := rfl
        _ = failed h (Nat.find hex') :=
            Finset.sum_eq_single_of_mem _ (Finset.mem_range.mpr hi0n) hrest
        _ = 1 := h1
    exact ⟨le_of_eq key, fun _ => key⟩
  · have hall : ∀ j ∈ Finset.range n, failed h j = 0 := by
      intro j hj
      have hnj : ¬ h j < (0.3 : ℚ) := fun hlow => hex ⟨j, Finset.mem_range.mp hj, hlow⟩
      simp [failed, low_health, HEALTH_THRESHOLD, hnj]
    have hz : failedCount h n = 0 := Finset.sum_eq_zero hall
    exact ⟨by omega, fun hx => absurd hx hex⟩

/-- A concrete non-increasing health series for the C7 witness. -/
def decaySeries (i : ℕ) : ℚ := 1 - i / 5

/-- Witness for C7 on a concrete decaying series. -/
theorem failed_at_most_one_witness : failedCount decaySeries 6 = 1 := by
  have hmono : ∀ i j : ℕ, i ≤ j → decaySeries j ≤ decaySeries i := by
    intro i j hij
    have hc : (i : ℚ) ≤ (j : ℚ) := Nat.cast_le.mpr hij
    unfold decaySeries
    linarith
  exact (failed_at_most_one decaySeries 6 hmono).2
    ⟨4, by norm_num, by norm_num [decaySeries]⟩

/-! Part 3: sensor signal construction (generate_data.py, lines 56-60). -/

/-- Model of numpy clip(x, lo, hi). -/
def np_clip (x lo hi : ℚ) : ℚ := min (max x lo) hi

/-- Temperature signal: base_temp + temp_drift + temp_noise (no clamp). -/
def temp_signal (base drift noise : ℚ) : ℚ := base + drift + noise

/-- Vibration signal: base_vibration + vib_drift + vib_noise (no clamp). -/
def vibration_signal (base drift noise : ℚ) : ℚ := base + drift + noise

/-- Pressure signal: base_pressure + pressure_noise (no clamp, no drift). -/
def pressure_signal (base noise : ℚ) : ℚ := base + noise

/-- Load signal: np.clip(base_load + load_noise, 10, 110). -/
def load_signal (base noise : ℚ) : ℚ := np_clip (base + noise) 10 110

/-- Rpm signal: np.clip(base_rpm + rpm_noise, 800, 2200). -/
def rpm_signal (base noise : ℚ) : ℚ := np_clip (base + noise) 800 2200

/-- C8: load_pct always lies in [10, 110] and rpm in [800, 2200],
while temperature, vibration and pressure are not clamped to any range: every
rational value (however large or small) is attainable by them. -/
theorem sensor_ranges :
    (∀ b n : ℚ, 10 ≤ load_signal b n ∧ load_signal b n ≤ 110) ∧
    (∀ b n : ℚ, 800 ≤ rpm_signal b n ∧ rpm_signal b n ≤ 2200) ∧
    (∀ y : ℚ, ∃ b d n : ℚ, temp_signal b d n = y) ∧
    (∀ y : ℚ, ∃ b d n : ℚ, vibration_signal b d n = y) ∧
    (∀ y : ℚ, ∃ b n : ℚ, pressure_signal b n = y) := by
  refine ⟨?_, ?_, ?_, ?_, ?_⟩
  · intro b n
    exact ⟨le_min (le_max_right _ _) (by norm_num), min_le_right _ _⟩
  · intro b n
    exact ⟨le_min (le_max_right _ _) (by norm_num), min_le_right _ _⟩
  · intro y
    exact ⟨y, 0, 0, by simp [temp_signal]⟩
  · intro y
    exact ⟨y, 0, 0, by simp [vibration_signal]⟩
  · intro y
    exact ⟨y, 0, by simp [pressure_signal]⟩

/-! Part 4: prediction service (api.py, predict_failure_24h). -/

/-- A JSON value that can appear in the request's feature mapping
(the pydantic schema declares `features: dict`, so values are arbitrary). -/
inductive PyValue where
  | num (q : ℚ)
  | str (s : String)
  | boolean (b : Bool)
  | null

/-- Numeric value of a decimal digit character. -/
def digitVal (c : Char) : ℕ := c.toNat - 48

/-- Natural number denoted by a list of decimal digit characters. -/
def digitsToNat (l : List Char) : ℕ :=
  l.foldl (fun acc c => 10 * acc + digitVal c) 0

/-- Model of CPython `float(str)` on an unsigned decimal literal
`digits [. digits]` (with at least one digit); other strings raise. -/
def parseUnsigned (l : List Char) : Option ℚ :=
  let intPart := l.takeWhile Char.isDigit
  let rest := l.dropWhile Char.isDigit
  match rest with
  | [] => if intPart.isEmpty then none else some (digitsToNat intPart)
  | '.' :: frac =>
      if frac.all Char.isDigit ∧ (intPart ≠ [] ∨ frac ≠ []) then
        some ((digitsToNat intPart : ℚ) + (digitsToNat frac : ℚ) / 10 ^ frac.length)
      else none
  | _ => none

/-- Model of CPython `float(str)`: optional sign followed by a decimal
literal (restricted to the plain decimal forms). -/
def pyFloatOfString (s : String) : Option ℚ :=
  match s.data with
  | '-' :: rest => (parseUnsigned rest).map (fun q => -q)
  | '+' :: rest => parseUnsigned rest
  | l => parseUnsigned l

/-- Model of Python `float(value)` as applied on line 55 of api.py: numbers
pass through, booleans coerce to 1.0/0.0, numeric strings parse, and every
other value raises (modelled as `none`). -/
def pyFloat : PyValue → Option ℚ
  | .num q => some q
  | .boolean b => some (if b then 1 else 0)
  | .str s => pyFloatOfString s
  | .null => none

/-- Model of `payload.features.get(col, 0.0)`: first binding of the key in
the mapping, defaulting to the number 0.0. -/
def dictGet : List (String × PyValue) → String → PyValue
  | [], _ => .num 0
  | p :: d, k => if p.1 = k then p.2 else dictGet d k

/-- Model of the list comprehension on line 55:
`[float(features.get(col, 0.0)) for col in feature_cols]`, where a raised
conversion error aborts the whole comprehension (`none`). -/
def buildVector (cols : List String) (d : List (String × PyValue)) :
    Option (List ℚ) :=
  match cols with
  | [] => some []
  | c :: cs =>
      match pyFloat (dictGet d c), buildVector cs d with
      | some v, some vs => some (v :: vs)
      | _, _ => none

/-- Low-risk recommendation string (line 62). -/
def lowRiskMsg : String :=
  "Low risk: continue normal operation, routine monitoring."

/-- Moderate-risk recommendation string (line 64). -/
def moderateRiskMsg : String :=
  "Moderate risk: schedule inspection in the next maintenance window."

/-- High-risk recommendation string (line 66). -/
def highRiskMsg : String :=
  "High risk: schedule maintenance as soon as possible to avoid unplanned downtime."

/-- Rule-based recommendation of lines 61-66. -/
def recommendation_for (proba : ℚ) : String :=
  if proba < 0.3 then lowRiskMsg
  else if proba < 0.7 then moderateRiskMsg
  else highRiskMsg

/-- Model of Python `round(x, 3)` over exact rationals. -/
def round3 (q : ℚ) : ℚ := ((round (q * 1000) : ℤ) : ℚ) / 1000

/-- Error signalled when a feature value cannot be converted to float
(the `ValueError` raised by `float(...)` on line 55). -/
def invalidInputMsg : String :=
  "InvalidInput: could not convert feature value to float"

/-- Response body of a successful prediction (lines 68-71). -/
structure PredictResponse where
  failure_probability_24h : ℚ
  recommendation : String

/-- Model of the `/predict_24h` handler (lines 47-71): the classifier is an
opaque function from the feature vector to the positive-class probability. -/
def predict_failure_24h (model : List ℚ → ℚ) (cols : List String)
    (features : List (String × PyValue)) : Except String PredictResponse :=
  match buildVector cols features with
  | none => .error invalidInputMsg
  | some x =>
      .ok { failure_probability_24h := round3 (model x),
            recommendation := recommendation_for (model x) }

/-- Numeric feature mapping wrapped into JSON values. -/
def numDict (d : List (String × ℚ)) : List (String × PyValue) :=
  d.map (fun p => (p.1, PyValue.num p.2))

/-- Lookup in a numeric mapping, defaulting to 0. -/
def qGet : List (String × ℚ) → String → ℚ
  | [], _ => 0
  | p :: d, k => if p.1 = k then p.2 else qGet d k

lemma dictGet_numDict (d : List (String × ℚ)) (c : String) :
    dictGet (numDict d) c = PyValue.num (qGet d c) := by
  induction d with
  | nil => rfl
  | cons p d ih =>
      simp only [numDict, List.map_cons, dictGet, qGet]
      split_ifs with h
      · rfl
      · exact ih

lemma buildVector_numDict (cols : List String) (d : List (String × ℚ)) :
    buildVector cols (numDict d) = some (cols.map (fun c => qGet d c)) := by
  induction cols with
  | nil => rfl
  | cons c cs ih => simp [buildVector, dictGet_numDict, pyFloat, ih]

lemma qGet_no_key (d : List (String × ℚ)) (c : String)
    (hd : ∀ p ∈ d, p.1 ≠ c) : qGet d c = 0 := by
  induction d with
  | nil => rfl
  | cons p d ih =>
      rw [qGet, if_neg (hd p (List.mem_cons_self p d))]
      exact ih fun q hq => hd q (List.mem_cons_of_mem p hq)

lemma dictGet_no_key (e : List (String × PyValue)) (c : String)
    (he : ∀ p ∈ e, p.1 ≠ c) : dictGet e c = PyValue.num 0 := by
  induction e with
  | nil => rfl
  | cons p e ih =>
      rw [dictGet, if_neg (he p (List.mem_cons_self p e))]
      exact ih fun q hq => he q (List.mem_cons_of_mem p hq)

lemma dictGet_append_no_key (d e : List (String × PyValue)) (c : String)
    (he : ∀ p ∈ e, p.1 ≠ c) : dictGet (d ++ e) c = dictGet d c := by
  induction d with
  | nil =>
      rw [List.nil_append, dictGet_no_key e c he]
      rfl
  | cons p d ih =>
      rw [List.cons_append, dictGet, dictGet]
      split_ifs
      · rfl
      · exact ih

lemma buildVector_append_no_key (cols : List String)
    (d e : List (String × PyValue)) (he : ∀ p ∈ e, p.1 ∉ cols) :
    buildVector cols (d ++ e) = buildVector cols d := by
  induction cols with
  | nil => rfl
  | cons c cs ih =>
      have hc : dictGet (d ++ e) c = dictGet d c :=
        dictGet_append_no_key d e c fun p hp heq =>
          he p hp (heq ▸ List.mem_cons_self c cs)
      have hcs : buildVector cs (d ++ e) = buildVector cs d :=
        ih fun p hp hmem => he p hp (List.mem_cons_of_mem c hmem)
      simp only [buildVector, hc, hcs]

/-- C4: the predict operation builds the model input vector in the exact
order of the stored feature-name list, substitutes 0.0 for every absent
name, ignores every extra name, and on the empty mapping against features
[f1, f2] builds the vector [0.0, 0.0] and returns a response carrying both
the probability field and the recommendation field. -/
theorem predict_vector_construction (m : List ℚ → ℚ) (cols : List String)
    (d : List (String × ℚ)) (extra : List (String × PyValue)) :
    buildVector cols (numDict d) = some (cols.map (fun c => qGet d c)) ∧
    (∀ c ∈ cols, (∀ p ∈ d, p.1 ≠ c) → qGet d c = 0) ∧
    ((∀ p ∈ extra, p.1 ∉ cols) →
      buildVector cols (numDict d ++ extra) = buildVector cols (numDict d)) ∧
    buildVector ["f1", "f2"] [] = some [0, 0] ∧
    predict_failure_24h m ["f1", "f2"] [] =
      .ok { failure_probability_24h := round3 (m [0, 0]),
            recommendation := recommendation_for (m [0, 0]) } := by
  refine ⟨buildVector_numDict cols d, ?_, ?_, rfl, rfl⟩
  · intro c _ hd
    exact qGet_no_key d c hd
  · intro he
    exact buildVector_append_no_key cols (numDict d) extra he

/-- Witness for C4 at concrete inputs. -/
theorem predict_vector_construction_witness :
    buildVector ["f1"] (numDict [("f1", 2)] ++ [("junk", PyValue.null)]) =
      buildVector ["f1"] (numDict [("f1", 2)]) ∧
    qGet [("g", 5)] "f1" = 0 := by
  obtain ⟨_, habsent, hextra, _, _⟩ :=
    predict_vector_construction (fun _ => 0) ["f1"] [("g", 5)] [("junk", PyValue.null)]
  constructor
  · refine (predict_vector_construction (fun _ => 0) ["f1"] [("f1", 2)]
      [("junk", PyValue.null)]).2.2.1 ?_
    intro p hp
    rcases List.mem_singleton.mp hp with rfl
    simp
  · refine habsent "f1" (List.mem_singleton.mpr rfl) ?_
    intro p hp
    rcases List.mem_singleton.mp hp with rfl
    simp

/-- C5: the fixed cut points map probabilities in [0, 0.3) to the low-risk
recommendation, [0.3, 0.7) to the moderate-risk one and [0.7, 1.0] to the
high-risk one (0.3 maps to moderate, 0.7 to high, 0.0 to low, 1.0 to high),
and the response carries the probability rounded to 3 decimal digits. -/
theorem recommendation_cutpoints (p : ℚ) (m : List ℚ → ℚ)
    (cols : List String) (d : List (String × PyValue)) (x : List ℚ) :
    (0 ≤ p → p < 0.3 → recommendation_for p = lowRiskMsg) ∧
    (0.3 ≤ p → p < 0.7 → recommendation_for p = moderateRiskMsg) ∧
    (0.7 ≤ p → p ≤ 1 → recommendation_for p = highRiskMsg) ∧
    recommendation_for 0.3 = moderateRiskMsg ∧
    recommendation_for 0.7 = highRiskMsg ∧
    recommendation_for 0 = lowRiskMsg ∧
    recommendation_for 1 = highRiskMsg ∧
    (buildVector cols d = some x →
      predict_failure_24h m cols d =
        .ok { failure_probability_24h := round3 (m x),
              recommendation := recommendation_for (m x) }) := by
  refine ⟨?_, ?_, ?_, ?_, ?_, ?_, ?_, ?_⟩
  · intro _ hp
    rw [recommendation_for, if_pos hp]
  · intro h1 h2
    rw [recommendation_for, if_neg (not_lt.mpr h1), if_pos h2]
  · intro h1 _
    rw [recommendation_for, if_neg (not_lt.mpr (by linarith)),
      if_neg (not_lt.mpr h1)]
  · norm_num [recommendation_for]
  · norm_num [recommendation_for]
  · norm_num [recommendation_for]
  · norm_num [recommendation_for]
  · intro hx
    simp only [predict_failure_24h, hx]

/-- Witness for C5 at concrete probabilities. -/
theorem recommendation_cutpoints_witness :
    recommendation_for 0.5 = moderateRiskMsg :=
  (recommendation_cutpoints 0.5 (fun _ => 0) [] [] []).2.1
    (by norm_num) (by norm_num)

lemma buildVector_eq_none_iff (cols : List String)
    (d : List (String × PyValue)) :
    buildVector cols d = none ↔ ∃ c ∈ cols, pyFloat (dictGet d c) = none := by
  induction cols with
  | nil => simp [buildVector]
  | cons c cs ih =>
      constructor
      · intro hn
        cases hc : pyFloat (dictGet d c) with
        | none => exact ⟨c, List.mem_cons_self c cs, hc⟩
        | some v =>
            cases hb : buildVector cs d with
            | none =>
                obtain ⟨c', hmem, hcv⟩ := ih.mp hb
                exact ⟨c', List.mem_cons_of_mem c hmem, hcv⟩
            | some vs =>
                rw [buildVector, hc, hb] at hn
                exact absurd hn (by simp)
      · rintro ⟨c', hmem, hcv⟩
        rcases List.mem_cons.mp hmem with rfl | hmem'
        · rw [buildVector, hcv]
        · rw [buildVector, ih.mpr ⟨c', hmem', hcv⟩]
          cases pyFloat (dictGet d c) <;> rfl

lemma buildVector_total (cols : List String) (d : List (String × PyValue))
    (hall : ∀ c ∈ cols, (pyFloat (dictGet d c)).isSome) :
    ∃ x, buildVector cols d = some x := by
  cases hb : buildVector cols d with
  | some x => exact ⟨x, rfl⟩
  | none =>
      obtain ⟨c, hmem, hcv⟩ := (buildVector_eq_none_iff cols d).mp hb
      have hc := hall c hmem
      rw [hcv] at hc
      exact absurd hc (by simp)

/-- C6 (amended): a request whose feature mapping holds a value that
float() cannot convert under one of the model's expected feature names
fails whole with the invalid-input error and yields no partial result;
when every looked-up value converts, the request fully succeeds, so that
missing keys (filled with 0.0) and extra keys (never looked up, even when
malformed) cause no error. -/
theorem predict_invalid_value (m : List ℚ → ℚ) (cols : List String)
    (d : List (String × PyValue)) :
    ((∃ c ∈ cols, pyFloat (dictGet d c) = none) →
      predict_failure_24h m cols d = .error invalidInputMsg) ∧
    ((∀ c ∈ cols, (pyFloat (dictGet d c)).isSome) →
      ∃ r, predict_failure_24h m cols d = .ok r) := by
  constructor
  · intro hex
    have hn : buildVector cols d = none := (buildVector_eq_none_iff cols d).mpr hex
    simp only [predict_failure_24h, hn]
  · intro hall
    obtain ⟨x, hx⟩ := buildVector_total cols d hall
    refine ⟨{ failure_probability_24h := round3 (m x),
              recommendation := recommendation_for (m x) }, ?_⟩
    simp only [predict_failure_24h, hx]

/-- Counterexample to C6 as stated: the mapping assigning the
unconvertible string "abc" to the extra key "junk" is a feature mapping
containing a malformed (non-numeric) value, yet against a model expecting
only the feature f1 the predict operation succeeds instead of failing. -/
theorem predict_malformed_extra_key_succeeds :
    pyFloat (PyValue.str "abc") = none ∧
    predict_failure_24h (fun _ => 0.5) ["f1"] [("junk", PyValue.str "abc")] =
      .ok { failure_probability_24h := round3 0.5,
            recommendation := recommendation_for 0.5 } := by
  exact ⟨rfl, rfl⟩

/-- Witness for C6 (amended) at a concrete malformed request. -/
theorem predict_invalid_value_witness :
    predict_failure_24h (fun _ => 0.5) ["f1"] [("f1", PyValue.str "abc")] =
      .error invalidInputMsg := by
  refine (predict_invalid_value (fun _ => 0.5) ["f1"]
    [("f1", PyValue.str "abc")]).1 ⟨"f1", List.mem_singleton.mpr rfl, ?_⟩
  rfl

/-- C9: float() silently coerces values that are not numbers when it can:
the numeric string "1.5" converts to 1.5 and booleans convert to 1.0/0.0,
so such requests return a normal prediction; a request fails with the
invalid-input error exactly when some looked-up value cannot be
converted. -/
theorem pyFloat_coercions :
    pyFloat (PyValue.str "1.5") = some 1.5 ∧
    pyFloat (PyValue.boolean true) = some 1 ∧
    pyFloat (PyValue.boolean false) = some 0 ∧
    predict_failure_24h (fun _ => 0.5) ["f1"] [("f1", PyValue.str "1.5")] =
      .ok { failure_probability_24h := round3 0.5,
            recommendation := recommendation_for 0.5 } ∧
    (∀ (m : List ℚ → ℚ) (cols : List String) (d : List (String × PyValue)),
      predict_failure_24h m cols d = .error invalidInputMsg ↔
        ∃ c ∈ cols, pyFloat (dictGet d c) = none) := by
  refine ⟨?_, rfl, rfl, ?_, ?_⟩
  · have hval : pyFloat (PyValue.str "1.5") =
        some ((digitsToNat ['1'] : ℚ) + (digitsToNat ['5'] : ℚ) / 10 ^ 1) := rfl
    rw [hval, show digitsToNat ['1'] = 1 from rfl, show digitsToNat ['5'] = 5 from rfl]
    norm_num
  · rfl
  · intro m cols d
    rw [← buildVector_eq_none_iff]
    constructor
    · intro he
      cases hb : buildVector cols d with
      | none => rfl
      | some x =>
          rw [predict_failure_24h, hb] at he
          exact absurd he (by simp)
    · intro hn
      simp only [predict_failure_24h, hn]

end PredMaint
